import Mathlib

/-!
# tidwall/serve: server bootstrapper

A shallow embedding of `serve.go`.  The functions of the package perform
effects only (logging, spawning goroutines, blocking in listeners), so each
function is embedded as the straight-line script of effects its body
performs, and the scripts are given an execution semantics below.
-/

namespace TidwallServe

/-- How a call ends, seen from the caller. -/
inductive Ctl where
  /-- The call returns normally to its caller. -/
  | returned
  /-- The call never returns: the goroutine stays inside a listener's accept loop. -/
  | blocked
  /-- The process is terminated with `os.Exit` (as `log.Fatal` does). -/
  | exited
  /-- The goroutine is unwinding with a panic. -/
  | panicked
  deriving DecidableEq

/-- A value stored in `Options.LogOutput`, described by its method set:
`Fatal` is `some c` when the value implements `fatalLogger`, where `c` tells
how a call of its `Fatal` method ends; `Printf` tells whether the value
implements `printfLogger`. -/
structure LogSink where
  Fatal : Option Ctl
  Printf : Bool
  deriving DecidableEq

/-- The value `os.Stderr`: an `*os.File` has neither a `Fatal` nor a `Printf` method. -/
def osStderr : LogSink := ⟨none, false⟩

/-- An application handler supplied by the caller; opaque to the package. -/
structure AppHandler where
  id : Nat
  deriving DecidableEq

/-- Go type `Options`.  `LogOutput = none` is the nil interface value. -/
structure Options where
  LogOutput : Option LogSink
  Handler : AppHandler
  Domain : String
  DevMode : Bool
  Port : Int
  CertFile : String
  KeyFile : String
  deriving DecidableEq

/-- Field `Prompt` of `autocert.Manager`. -/
inductive Prompt where
  | unset
  | AcceptTOS
  deriving DecidableEq

/-- Field `HostPolicy` of `autocert.Manager`. -/
inductive HostPolicy where
  | unset
  | HostWhitelist (hosts : List String)
  deriving DecidableEq

/-- Field `Cache` of `autocert.Manager`. -/
inductive Cache where
  | unset
  | DirCache (dir : String)
  deriving DecidableEq

/-- The fields of `autocert.Manager` that the package sets. -/
structure Manager where
  Prompt : Prompt
  HostPolicy : HostPolicy
  Cache : Cache
  deriving DecidableEq

/-- The handler values the package installs on a listener. -/
inductive Handler where
  /-- The value `opts.Handler`. -/
  | app (h : AppHandler)
  /-- The `http.HandlerFunc` literal of `startServerHTTP`, closed over `opts.Domain`. -/
  | redirectFunc (domain : String)
  /-- The value `m.HTTPHandler(fallback)`; `fallback = none` is `HTTPHandler(nil)`. -/
  | HTTPHandler (m : Manager) (fallback : Option AppHandler)
  deriving DecidableEq

/-- Where a TLS listener takes its certificate from. -/
inductive TLSSource where
  /-- `ListenAndServeTLS(certFile, keyFile)`. -/
  | files (certFile keyFile : String)
  /-- `TLSConfig.GetCertificate = m.GetCertificate` with `ListenAndServeTLS("", "")`. -/
  | GetCertificate (m : Manager)
  deriving DecidableEq

/-- A listener call: the `http.Server` fields the package sets, and whether
the call is `ListenAndServe` (`tls = none`) or `ListenAndServeTLS`.
Timeouts are in seconds, `0` being the zero value (no timeout). -/
structure Server where
  Handler : Handler
  Addr : String
  WriteTimeout : Nat
  ReadTimeout : Nat
  tls : Option TLSSource
  deriving DecidableEq

/-- An argument of a formatted log call. -/
inductive Arg where
  | int (i : Int)
  | str (s : String)
  deriving DecidableEq

/-- The statements that occur in the bodies of the start functions. -/
inductive Stmt where
  /-- `time.Sleep`, in milliseconds. -/
  | sleep (ms : Nat)
  /-- `logPrintf(opts, format, args...)`. -/
  | logPrintf (format : String) (args : List Arg)
  /-- `log.Printf(format, args...)`, the process-global logger. -/
  | stdPrintf (format : String) (args : List Arg)
  /-- `logFatal(opts, <listener call>)`. -/
  | serveFatal (s : Server)
  /-- `go func() { body }()`. -/
  | go (body : List Stmt)

mutual
/-- Every listener call of a statement, those inside spawned goroutines included. -/
def Stmt.servers : Stmt → List Server
  | .serveFatal s => [s]
  | .go body => servers body
  | _ => []
/-- Every listener call in a script, those inside spawned goroutines included. -/
def servers : List Stmt → List Server
  | [] => []
  | s :: rest => s.servers ++ servers rest
end

/-- An event of a run that the package itself causes. -/
inductive Event where
  /-- `logger.Fatal(err)` on the configured sink. -/
  | sinkFatal (err : String)
  /-- `log.Fatal(err)` on the process-global logger. -/
  | stdFatal (err : String)
  /-- `logger.Printf(format, args...)` on the configured sink. -/
  | sinkPrintf (format : String) (args : List Arg)
  /-- `log.Printf(format, args...)` on the process-global logger. -/
  | stdPrintf (format : String) (args : List Arg)
  /-- `panic(msg)`. -/
  | panic (msg : String)
  /-- A listener call was entered. -/
  | listen (s : Server)
  deriving DecidableEq

/-- The result of running a piece of code in one goroutine: the events it
caused, in order, and how it ended. -/
structure Exec where
  events : List Event
  ctl : Ctl
  deriving DecidableEq

/-- Sequencing: the second piece runs only when the first returned. -/
def Exec.andThen (a b : Exec) : Exec :=
  match a.ctl with
  | .returned => ⟨a.events ++ b.events, b.ctl⟩
  | _ => a

/-- Go function `logFatal`.  `err` is the text of the error.  `log.Fatal`
of the standard library prints and then calls `os.Exit(1)`. -/
def logFatal (opts : Options) (err : String) : Exec :=
  let LogOutput := match opts.LogOutput with
    | none => osStderr
    | some out => out
  let logged : Exec := match LogOutput.Fatal with
    | some c => ⟨[.sinkFatal err], c⟩
    | none => ⟨[.stdFatal err], .exited⟩
  logged.andThen ⟨[.panic "fatal"], .panicked⟩

/-- Go function `logPrintf`. -/
def logPrintf (opts : Options) (format : String) (args : List Arg) : Exec :=
  let LogOutput := match opts.LogOutput with
    | none => osStderr
    | some out => out
  if LogOutput.Printf then ⟨[.sinkPrintf format args], .returned⟩
  else ⟨[.stdPrintf format args], .returned⟩

/-- Go constant `timeout = time.Second * 15`, in seconds. -/
def timeout : Nat := 15

/-- Go function `startServerDev`; `fmt.Sprintf(":%d", opts.Port)` is the
colon followed by the decimal rendering of the port. -/
def startServerDev (opts : Options) : List Stmt :=
  let s : Server :=
    { Handler := .app opts.Handler
      Addr := ":" ++ toString opts.Port
      WriteTimeout := timeout
      ReadTimeout := timeout
      tls := none }
  [ .go [ .sleep 100, .logPrintf "Serving on port %d" [.int opts.Port] ],
    .serveFatal s ]

/-- Go function `startServerHTTPS`. -/
def startServerHTTPS (opts : Options) : List Stmt :=
  [ .go
      [ .go [ .sleep 100, .logPrintf "Serving at https://%s" [.str opts.Domain] ],
        .serveFatal
          { Handler := .app opts.Handler
            Addr := ":443"
            WriteTimeout := timeout
            ReadTimeout := timeout
            tls := some (.files opts.CertFile opts.KeyFile) } ] ]

/-- Go function `startServerHTTP`; `http.ListenAndServe(addr, h)` runs a
server that has only `Addr` and `Handler` set. -/
def startServerHTTP (opts : Options) : List Stmt :=
  [ .go
      [ .go [ .sleep 100, .logPrintf "Serving at http://%s" [.str opts.Domain] ],
        .serveFatal
          { Handler := .redirectFunc opts.Domain
            Addr := ":80"
            WriteTimeout := 0
            ReadTimeout := 0
            tls := none } ] ]

/-- The local `certManager` of `startServerAutoCert`. -/
def certManager (opts : Options) : Manager :=
  { Prompt := .AcceptTOS
    HostPolicy := .HostWhitelist [opts.Domain]
    Cache := .DirCache "certs" }

/-- Go function `startServerAutoCert`. -/
def startServerAutoCert (opts : Options) : List Stmt :=
  let s : Server :=
    { Handler := .app opts.Handler
      Addr := ":443"
      tls := some (.GetCertificate (certManager opts))
      ReadTimeout := timeout
      WriteTimeout := timeout }
  [ .go
      [ .go [ .sleep 100, .stdPrintf "Serving at https://%s" [.str opts.Domain] ],
        .serveFatal s ],
    .serveFatal
      { Handler := .HTTPHandler (certManager opts) none
        Addr := ":80"
        WriteTimeout := 0
        ReadTimeout := 0
        tls := none } ]

/-- Go function `Serve`. -/
def Serve (opts : Options) : List Stmt :=
  if opts.DevMode then
    startServerDev opts
  else if opts.CertFile == "" && opts.KeyFile == "" then
    startServerAutoCert opts
  else
    startServerHTTP opts ++ startServerHTTPS opts

/-- The three branches of `Serve`. -/
inductive Mode where
  | dev
  | autoCert
  | staticCert
  deriving DecidableEq

/-- The branch `Serve` takes: the conditions of its `if` chain, in order. -/
def Serve.mode (opts : Options) : Mode :=
  if opts.DevMode then .dev
  else if opts.CertFile == "" && opts.KeyFile == "" then .autoCert
  else .staticCert

/-- The calls in the body of each branch of `Serve`. -/
def Mode.start : Mode → Options → List Stmt
  | .dev, opts => startServerDev opts
  | .autoCert, opts => startServerAutoCert opts
  | .staticCert, opts => startServerHTTP opts ++ startServerHTTPS opts

/-- The part of an `*http.Request` the package reads. -/
structure Request where
  Method : String
  RequestURI : String
  deriving DecidableEq

/-- The request-target on a request line, in the two forms that carry a
path: origin form (`/a/b?x=1`), which ordinary clients send, and absolute
form (`http://host/a/b?x=1`), which the `net/http` server accepts as well. -/
inductive RequestTarget where
  | origin (path : String) (query : Option String)
  | absolute (scheme host path : String) (query : Option String)
  deriving DecidableEq

/-- A query string as it is written behind a path. -/
def queryPart : Option String → String
  | none => ""
  | some q => "?" ++ q

/-- The request-target as sent on the request line. -/
def RequestTarget.raw : RequestTarget → String
  | .origin path query => path ++ queryPart query
  | .absolute scheme host path query => scheme ++ "://" ++ host ++ path ++ queryPart query

/-- The path and query string of a request-target. -/
def RequestTarget.pathAndQuery : RequestTarget → String
  | .origin path query => path ++ queryPart query
  | .absolute _ _ path query => path ++ queryPart query

/-- The request the `net/http` server hands to a handler: `RequestURI` is
"the unmodified request-target of the Request-Line as sent by the client". -/
def readRequest (method : String) (t : RequestTarget) : Request :=
  ⟨method, t.raw⟩

/-- The call `http.Redirect(w, r, url, code)`. -/
structure Redirect where
  url : String
  code : Nat
  deriving DecidableEq

/-- What a handler installed by the package does with a request, where the
package defines it: the function literal of `startServerHTTP` calls
`http.Redirect`; the other two handlers are code outside the package. -/
def Handler.ServeHTTP : Handler → Request → Option Redirect
  | .redirectFunc domain, r => some ⟨"https://" ++ domain ++ r.RequestURI, 301⟩
  | .app _, _ => none
  | .HTTPHandler _ _, _ => none

/-- The policy returned by `autocert.HostWhitelist(hosts...)`, a function
of the `autocert` library: each listed name is put in a set after
`idna.Lookup.ToASCII`, names that fail to convert are dropped, and a host
is allowed exactly when it is in the set.  A nil policy allows every host.
The conversion is the parameter `toASCII`. -/
def HostPolicy.allows (toASCII : String → Option String) : HostPolicy → String → Bool
  | .unset, _ => true
  | .HostWhitelist hosts, host => (hosts.filterMap toASCII).contains host

/-- Runs one statement in the current goroutine.  `net s` is the error the
listener call `s` returns, `none` when it keeps serving.  A `go` statement
returns at once; its body runs in another goroutine. -/
def Stmt.exec (opts : Options) (net : Server → Option String) : Stmt → Exec
  | .sleep _ => ⟨[], .returned⟩
  | .logPrintf format args => TidwallServe.logPrintf opts format args
  | .stdPrintf format args => ⟨[.stdPrintf format args], .returned⟩
  | .serveFatal s =>
    match net s with
    | none => ⟨[.listen s], .blocked⟩
    | some err => (⟨[.listen s], .returned⟩ : Exec).andThen (logFatal opts err)
  | .go _ => ⟨[], .returned⟩

/-- Runs a script in the current goroutine. -/
def exec (opts : Options) (net : Server → Option String) : List Stmt → Exec
  | [] => ⟨[], .returned⟩
  | s :: rest => (s.exec opts net).andThen (exec opts net rest)

mutual
/-- The listener calls entered when a statement runs: its own, and those of
the goroutines it spawns (every spawned goroutine is taken to run). -/
def Stmt.started (opts : Options) (net : Server → Option String) : Stmt → List Server
  | .serveFatal s => [s]
  | .go body => started opts net body
  | _ => []
/-- The listener calls entered when a script runs: a statement is reached
only when every statement before it returned. -/
def started (opts : Options) (net : Server → Option String) : List Stmt → List Server
  | [] => []
  | s :: rest =>
    s.started opts net ++
      (if (s.exec opts net).ctl = .returned then started opts net rest else [])
end

/-- The application handlers a handler can pass a request to: itself when
it is one, and the fallback of an `HTTPHandler`. -/
def Handler.appHandlers : Handler → List AppHandler
  | .app h => [h]
  | .redirectFunc _ => []
  | .HTTPHandler _ fallback => fallback.toList

/-- Splits a list of characters at its last colon. -/
def splitLastColon : List Char → Option (List Char × List Char)
  | [] => none
  | c :: cs =>
    match splitLastColon cs with
    | some (h, p) => some (c :: h, p)
    | none => if c = ':' then some ([], cs) else none

/-- The function `net.SplitHostPort` on addresses without brackets: host
and port are separated by the last colon, and a host that itself has a
colon is an error.  Bracketed IPv6 literals are left out. -/
def splitHostPort (addr : String) : Option (String × String) :=
  if addr.data.head? = some '[' then none
  else
    match splitLastColon addr.data with
    | some (h, p) => if ':' ∈ h then none else some (⟨h⟩, ⟨p⟩)
    | none => none

/-- The local address of a TCP listener. -/
inductive BindHost where
  /-- All available unicast and anycast addresses of the local system. -/
  | wildcard
  /-- The named host only. -/
  | host (name : String)
  deriving DecidableEq

/-- How `net.Listen("tcp", addr)` reads the host: "if the host in the
address parameter is empty or a literal unspecified IP address, Listen
listens on all available unicast and anycast IP addresses of the local
system". -/
def bindHost (host : String) : BindHost :=
  if host = "" ∨ host = "0.0.0.0" then .wildcard else .host host

/-- What a TCP listener on `addr` is bound to: local address and port. -/
def listenAddr (addr : String) : Option (BindHost × String) :=
  match splitHostPort addr with
  | some (h, p) => some (bindHost h, p)
  | none => none

/-! ## Example configurations -/

/-- Development mode on port 8080. -/
def optsDev : Options := ⟨none, ⟨0⟩, "example.com", true, 8080, "", ""⟩

/-- Development mode on port 80. -/
def optsDev80 : Options := ⟨none, ⟨0⟩, "example.com", true, 80, "", ""⟩

/-- Both certificate fields set. -/
def optsStatic : Options := ⟨none, ⟨0⟩, "example.com", false, 0, "cert.pem", "key.pem"⟩

/-- Only `CertFile` set. -/
def optsCertOnly : Options := ⟨none, ⟨0⟩, "example.com", false, 0, "cert.pem", ""⟩

/-- Neither certificate field set. -/
def optsAuto : Options := ⟨none, ⟨0⟩, "example.com", false, 0, "", ""⟩

/-! ## Reading decimal digits -/

/-- The value of a decimal digit character. -/
def digitVal (c : Char) : Nat := c.toNat - 48

/-- Reads a list of decimal digits, most significant first. -/
def readDigits (cs : List Char) : Nat := cs.foldl (fun a c => a * 10 + digitVal c) 0

/-! ## Decimal rendering -/

theorem digitVal_digitChar (d : Nat) (h : d < 10) : digitVal (Nat.digitChar d) = d := by
  interval_cases d <;> rfl

theorem toDigitsCore_eq_append (f : Nat) : ∀ (n : Nat) (ds : List Char),
    Nat.toDigitsCore 10 f n ds = Nat.toDigitsCore 10 f n [] ++ ds := by
  induction f with
  | zero => intro n ds; simp [Nat.toDigitsCore]
  | succ f ih =>
    intro n ds
    simp only [Nat.toDigitsCore]
    by_cases h : n / 10 = 0
    · simp [h]
    · simp only [h, if_false]
      rw [ih (n / 10) (Nat.digitChar (n % 10) :: ds), ih (n / 10) [Nat.digitChar (n % 10)]]
      simp

theorem readDigits_toDigitsCore (f : Nat) : ∀ n : Nat, n < f →
    readDigits (Nat.toDigitsCore 10 f n []) = n := by
  induction f with
  | zero => intro n h; omega
  | succ f ih =>
    intro n hn
    simp only [Nat.toDigitsCore]
    by_cases h : n / 10 = 0
    · simp only [h, if_true, readDigits, List.foldl]
      rw [digitVal_digitChar _ (Nat.mod_lt _ (by decide))]
      omega
    · simp only [h, if_false]
      rw [toDigitsCore_eq_append]
      have hlt : n / 10 < f := by omega
      have := ih (n / 10) hlt
      simp only [readDigits] at this
      simp only [readDigits, List.foldl_append, List.foldl, this]
      rw [digitVal_digitChar _ (Nat.mod_lt _ (by decide))]
      omega

theorem readDigits_repr (n : Nat) : readDigits (toString n).data = n := by
  show readDigits (Nat.repr n).data = n
  simp only [Nat.repr, Nat.toDigits, List.asString]
  exact readDigits_toDigitsCore (n + 1) n (by omega)

theorem digitChar_ne_minus (d : Nat) (h : d < 10) : Nat.digitChar d ≠ '-' := by
  interval_cases d <;> decide

theorem minus_not_mem_toDigitsCore (f : Nat) : ∀ n : Nat,
    '-' ∉ Nat.toDigitsCore 10 f n [] := by
  induction f with
  | zero => intro n; simp [Nat.toDigitsCore]
  | succ f ih =>
    intro n
    have hd := (digitChar_ne_minus (n % 10) (Nat.mod_lt _ (by decide))).symm
    simp only [Nat.toDigitsCore]
    by_cases h : n / 10 = 0
    · simp [h, hd]
    · simp only [h, if_false]
      rw [toDigitsCore_eq_append]
      simp [ih (n / 10), hd]

theorem minus_not_mem_repr (n : Nat) : '-' ∉ (toString n).data := by
  show '-' ∉ (Nat.repr n).data
  simp only [Nat.repr, Nat.toDigits, List.asString]
  exact minus_not_mem_toDigitsCore (n + 1) n

/-- The decimal rendering of an integer port equals that of a natural
number only for that number. -/
theorem toString_port_eq (p : Int) (n : Nat) (h : toString p = toString n) :
    p = (n : Int) := by
  cases p with
  | ofNat m =>
    have h1 : toString m = toString n := h
    have := congrArg (fun s => readDigits s.data) h1
    simp only [readDigits_repr] at this
    simp [this]
  | negSucc m =>
    exfalso
    have h1 : "-" ++ toString (m + 1) = toString n := h
    have h2 : '-' ∈ ("-" ++ toString (m + 1)).data := by
      rw [String.data_append]
      exact List.mem_append_left _ (by decide)
    rw [h1] at h2
    exact minus_not_mem_repr n h2

/-- The address `fmt.Sprintf(":%d", p)` equals `":" ++ n` rendered in
decimal only when `p = n`. -/
theorem addr_eq_iff (p : Int) (n : Nat) :
    ":" ++ toString p = ":" ++ toString n ↔ p = (n : Int) := by
  constructor
  · intro h
    apply toString_port_eq
    have := congrArg String.data h
    simp only [String.data_append, List.append_cancel_left_eq] at this
    exact String.ext this
  · rintro rfl
    rfl

/-! ## Listen addresses -/

theorem digitChar_ne_colon (d : Nat) (h : d < 10) : Nat.digitChar d ≠ ':' := by
  interval_cases d <;> decide

theorem colon_not_mem_toDigitsCore (f : Nat) : ∀ n : Nat,
    ':' ∉ Nat.toDigitsCore 10 f n [] := by
  induction f with
  | zero => intro n; simp [Nat.toDigitsCore]
  | succ f ih =>
    intro n
    have hd := (digitChar_ne_colon (n % 10) (Nat.mod_lt _ (by decide))).symm
    simp only [Nat.toDigitsCore]
    by_cases h : n / 10 = 0
    · simp [h, hd]
    · simp only [h, if_false]
      rw [toDigitsCore_eq_append]
      simp [ih (n / 10), hd]

theorem colon_not_mem_repr (n : Nat) : ':' ∉ (toString n).data := by
  show ':' ∉ (Nat.repr n).data
  simp only [Nat.repr, Nat.toDigits, List.asString]
  exact colon_not_mem_toDigitsCore (n + 1) n

theorem colon_not_mem_port (p : Int) : ':' ∉ (toString p).data := by
  cases p with
  | ofNat m => exact colon_not_mem_repr m
  | negSucc m =>
    show ':' ∉ ("-" ++ toString (m + 1)).data
    rw [String.data_append]
    intro h
    rcases List.mem_append.1 h with h | h
    · revert h; decide
    · exact colon_not_mem_repr (m + 1) h

theorem splitLastColon_none (cs : List Char) (h : ':' ∉ cs) : splitLastColon cs = none := by
  induction cs with
  | nil => rfl
  | cons c cs ih =>
    simp only [List.mem_cons, not_or] at h
    simp [splitLastColon, ih h.2, Ne.symm h.1]

theorem splitLastColon_append (hs ps : List Char) (h : ':' ∉ ps) :
    splitLastColon (hs ++ ':' :: ps) = some (hs, ps) := by
  induction hs with
  | nil => simp [splitLastColon, splitLastColon_none ps h]
  | cons c hs ih => simp [splitLastColon, ih]

/-- An address with an empty host and one with host `0.0.0.0` are the same
wildcard bind on the same port. -/
theorem listenAddr_port (p : Int) :
    listenAddr (":" ++ toString p) = some (.wildcard, toString p) ∧
    listenAddr ("0.0.0.0:" ++ toString p) = some (.wildcard, toString p) := by
  have hp := colon_not_mem_port p
  have h1 := splitLastColon_append [] (toString p).data hp
  have h2 := splitLastColon_append ['0', '.', '0', '.', '0', '.', '0'] (toString p).data hp
  have e1 : (":" ++ toString p).data = [] ++ ':' :: (toString p).data := by
    rw [String.data_append]; rfl
  have e2 : ("0.0.0.0:" ++ toString p).data =
      ['0', '.', '0', '.', '0', '.', '0'] ++ ':' :: (toString p).data := by
    rw [String.data_append]; rfl
  constructor
  · unfold listenAddr splitHostPort
    rw [e1, h1]
    simp [bindHost]
  · unfold listenAddr splitHostPort
    rw [e2, h2]
    simp [bindHost]

/-! ## Helper lemmas -/

theorem Serve_eq_start (opts : Options) : Serve opts = (Serve.mode opts).start opts := by
  unfold Serve Serve.mode
  split
  · rfl
  · split <;> rfl

theorem mode_dev_iff (opts : Options) : Serve.mode opts = .dev ↔ opts.DevMode = true := by
  unfold Serve.mode
  split
  · simp [*]
  · split <;> simp [*]

theorem mode_autoCert_iff (opts : Options) :
    Serve.mode opts = .autoCert ↔
      opts.DevMode = false ∧ opts.CertFile = "" ∧ opts.KeyFile = "" := by
  unfold Serve.mode
  split
  · simp [*]
  · split <;> simp_all

theorem mode_staticCert_iff (opts : Options) :
    Serve.mode opts = .staticCert ↔
      opts.DevMode = false ∧ (opts.CertFile ≠ "" ∨ opts.KeyFile ≠ "") := by
  unfold Serve.mode
  split
  · simp [*]
  · split
    · simp_all
    · simp_all
      tauto

theorem logFatal_ctl (opts : Options) (err : String) : (logFatal opts err).ctl ≠ .returned := by
  unfold logFatal Exec.andThen
  rcases opts.LogOutput with _ | ⟨f, p⟩
  · simp [osStderr]
  · rcases f with _ | c
    · simp
    · cases c <;> simp

theorem exec_serveFatal_ctl (opts : Options) (net : Server → Option String) (s : Server) :
    ((Stmt.serveFatal s).exec opts net).ctl ≠ .returned := by
  simp only [Stmt.exec]
  cases h : net s with
  | none => simp
  | some err =>
    have := logFatal_ctl opts err
    simp only [Exec.andThen]
    exact this

/-! ## Mode selection -/

/-- C1 (as amended): `Serve` runs exactly the start sequence of one mode,
chosen by precedence: development mode when `DevMode` is set; otherwise
automatic-certificate mode exactly when `CertFile` and `KeyFile` are both
empty; otherwise (at least one of the two non-empty) static-certificate
mode. -/
theorem Serve_mode_precedence (opts : Options) :
    Serve opts = (Serve.mode opts).start opts ∧
    (Serve.mode opts = .dev ↔ opts.DevMode = true) ∧
    (Serve.mode opts = .staticCert ↔
      opts.DevMode = false ∧ (opts.CertFile ≠ "" ∨ opts.KeyFile ≠ "")) ∧
    (Serve.mode opts = .autoCert ↔
      opts.DevMode = false ∧ opts.CertFile = "" ∧ opts.KeyFile = "") :=
  ⟨Serve_eq_start opts, mode_dev_iff opts, mode_staticCert_iff opts, mode_autoCert_iff opts⟩

/-- C1 fails as stated: with `CertFile = "cert.pem"` and `KeyFile = ""`
the static-certificate sequence runs although the two fields are not both
non-empty, and the automatic-certificate sequence does not run. -/
theorem Serve_mode_cert_only_counterexample :
    ¬ (Serve.mode optsCertOnly = .staticCert ↔
        optsCertOnly.DevMode = false ∧ optsCertOnly.CertFile ≠ "" ∧ optsCertOnly.KeyFile ≠ "") ∧
    Serve.mode optsCertOnly ≠ .autoCert ∧
    servers (Serve optsCertOnly) =
      servers (startServerHTTP optsCertOnly ++ startServerHTTPS optsCertOnly) := by
  decide

/-! ## The redirect listener -/

/-- C2 (as amended): in static-certificate mode `Serve` starts a plaintext
listener on `:80`, and every listener on `:80` answers every request by a
redirect with status 301 to `"https://" ++ Domain ++ RequestURI`, the
request-target exactly as sent; for every request in origin form that is
`"https://" ++ Domain` followed by the path and query string unchanged. -/
theorem static_http_redirect (opts : Options) (hmode : Serve.mode opts = .staticCert)
    (net : Server → Option String) (r : Request) :
    (∃ s ∈ started opts net (Serve opts), s.Addr = ":80") ∧
    (∃ s ∈ servers (Serve opts), s.Addr = ":80") ∧
    (∀ s ∈ servers (Serve opts), s.Addr = ":80" →
      s.tls = none ∧
      s.Handler.ServeHTTP r = some ⟨"https://" ++ opts.Domain ++ r.RequestURI, 301⟩) ∧
    (∀ s ∈ servers (Serve opts), s.Addr = ":80" →
      ∀ (method path : String) (query : Option String),
        s.Handler.ServeHTTP (readRequest method (.origin path query)) =
          some ⟨"https://" ++ opts.Domain ++
            (RequestTarget.origin path query).pathAndQuery, 301⟩) := by
  rw [Serve_eq_start, hmode]
  simp [Mode.start, startServerHTTP, startServerHTTPS, servers, Stmt.servers, started,
    Stmt.started, Stmt.exec, Handler.ServeHTTP, readRequest, RequestTarget.raw,
    RequestTarget.pathAndQuery]

/-- C2 at `Domain = "example.com"` and the origin-form request `GET /a/b?x=1`. -/
theorem static_http_redirect_witness :
    Serve.mode optsStatic = .staticCert ∧
    ((∃ s ∈ started optsStatic (fun _ => none) (Serve optsStatic), s.Addr = ":80") ∧
    (∃ s ∈ servers (Serve optsStatic), s.Addr = ":80") ∧
    (∀ s ∈ servers (Serve optsStatic), s.Addr = ":80" →
      s.tls = none ∧
      s.Handler.ServeHTTP (readRequest "GET" (.origin "/a/b" (some "x=1"))) =
        some ⟨"https://example.com/a/b?x=1", 301⟩) ∧
    (∀ s ∈ servers (Serve optsStatic), s.Addr = ":80" →
      ∀ (method path : String) (query : Option String),
        s.Handler.ServeHTTP (readRequest method (.origin path query)) =
          some ⟨"https://" ++ optsStatic.Domain ++
            (RequestTarget.origin path query).pathAndQuery, 301⟩)) :=
  ⟨by decide, static_http_redirect optsStatic (by decide) (fun _ => none)
    (readRequest "GET" (.origin "/a/b" (some "x=1")))⟩

/-- C2 fails as stated: for the absolute-form request
`GET http://evil.test/a/b?x=1`, whose path is `/a/b` and whose query is
`x=1`, the listener on `:80` redirects to
`https://example.comhttp://evil.test/a/b?x=1`, which is not
`https://example.com/a/b?x=1`. -/
theorem static_http_redirect_absolute_counterexample :
    Serve.mode optsStatic = .staticCert ∧
    (RequestTarget.absolute "http" "evil.test" "/a/b" (some "x=1")).pathAndQuery =
      "/a/b?x=1" ∧
    ∃ s ∈ servers (Serve optsStatic), s.Addr = ":80" ∧
      s.Handler.ServeHTTP
          (readRequest "GET" (.absolute "http" "evil.test" "/a/b" (some "x=1"))) =
        some ⟨"https://example.comhttp://evil.test/a/b?x=1", 301⟩ ∧
      s.Handler.ServeHTTP
          (readRequest "GET" (.absolute "http" "evil.test" "/a/b" (some "x=1"))) ≠
        some ⟨"https://" ++ optsStatic.Domain ++
          (RequestTarget.absolute "http" "evil.test" "/a/b" (some "x=1")).pathAndQuery,
          301⟩ := by
  decide

/-! ## Termination of the main flow -/

/-- The main flow of `Serve` returns exactly in static-certificate mode. -/
theorem exec_Serve_ctl (opts : Options) (net : Server → Option String) :
    (exec opts net (Serve opts)).ctl = .returned ↔ Serve.mode opts = .staticCert := by
  have h80 := exec_serveFatal_ctl opts net
  rw [Serve_eq_start]
  cases hm : Serve.mode opts with
  | dev =>
    have := h80
      { Handler := .app opts.Handler, Addr := ":" ++ toString opts.Port,
        WriteTimeout := timeout, ReadTimeout := timeout, tls := none }
    simp only [Mode.start, startServerDev, exec, Stmt.exec, Exec.andThen] at this ⊢
    simp only [List.nil_append, reduceCtorEq, iff_false]
    intro h
    apply this
    split at h <;> simp_all
  | autoCert =>
    have := h80
      { Handler := .HTTPHandler (certManager opts) none, Addr := ":80",
        WriteTimeout := 0, ReadTimeout := 0, tls := none }
    simp only [Mode.start, startServerAutoCert, exec, Stmt.exec, Exec.andThen] at this ⊢
    simp only [List.nil_append, reduceCtorEq, iff_false]
    intro h
    apply this
    split at h <;> simp_all
  | staticCert =>
    simp [Mode.start, startServerHTTP, startServerHTTPS, exec, Stmt.exec, Exec.andThen]

/-- C3 fails in static-certificate mode: the main flow of `Serve` returns
to its caller exactly in static-certificate mode, where it has made no
listener call and logged nothing; in the two other modes it never returns.
With `CertFile = "cert.pem"` and `KeyFile = "key.pem"` it returns at once. -/
theorem Serve_main_flow_returns_iff (opts : Options) (net : Server → Option String) :
    ((exec opts net (Serve opts)).ctl = .returned ↔ Serve.mode opts = .staticCert) ∧
    (exec opts net (Serve opts) = ⟨[], .returned⟩ ↔ Serve.mode opts = .staticCert) ∧
    exec optsStatic net (Serve optsStatic) = ⟨[], .returned⟩ := by
  refine ⟨exec_Serve_ctl opts net, ⟨?_, ?_⟩, rfl⟩
  · intro h
    exact (exec_Serve_ctl opts net).1 (by rw [h])
  · intro hm
    rw [Serve_eq_start, hm]
    rfl

/-! ## Logging -/

/-- C4: for every log sink and every error, `logFatal` hands the error to
a logger and does not return: without a sink `Fatal` the global
`log.Fatal` ends the process; a sink `Fatal` that does not return ends the
call itself; after a sink `Fatal` that returns, `panic("fatal")` follows. -/
theorem logFatal_never_returns (opts : Options) (err : String) :
    (logFatal opts err).ctl ≠ .returned ∧
    (.sinkFatal err ∈ (logFatal opts err).events ∨
      .stdFatal err ∈ (logFatal opts err).events) ∧
    (match (opts.LogOutput.getD osStderr).Fatal with
      | some .returned => logFatal opts err = ⟨[.sinkFatal err, .panic "fatal"], .panicked⟩
      | some c => logFatal opts err = ⟨[.sinkFatal err], c⟩
      | none => logFatal opts err = ⟨[.stdFatal err], .exited⟩) := by
  refine ⟨logFatal_ctl opts err, ?_, ?_⟩
  · unfold logFatal Exec.andThen
    rcases opts.LogOutput with _ | ⟨f, p⟩
    · simp [osStderr]
    · rcases f with _ | c
      · simp
      · cases c <;> simp
  · unfold logFatal Exec.andThen
    rcases opts.LogOutput with _ | ⟨f, p⟩
    · simp [osStderr]
    · rcases f with _ | c
      · simp
      · cases c <;> simp

/-- C8: the two capabilities are tested separately.  `logFatal` calls the
sink's `Fatal` exactly when the sink has one and the global `log.Fatal`
otherwise; `logPrintf` calls the sink's `Printf` exactly when the sink has
one and the global `log.Printf` otherwise; an absent sink, or one with
neither method, sends both kinds of message to the global logger. -/
theorem log_capabilities_independent (opts : Options) (err format : String)
    (args : List Arg) :
    (.sinkFatal err ∈ (logFatal opts err).events ↔
      (opts.LogOutput.getD osStderr).Fatal ≠ none) ∧
    (.stdFatal err ∈ (logFatal opts err).events ↔
      (opts.LogOutput.getD osStderr).Fatal = none) ∧
    (logPrintf opts format args = ⟨[.sinkPrintf format args], .returned⟩ ↔
      (opts.LogOutput.getD osStderr).Printf = true) ∧
    (logPrintf opts format args = ⟨[.stdPrintf format args], .returned⟩ ↔
      (opts.LogOutput.getD osStderr).Printf = false) ∧
    (logFatal { opts with LogOutput := none } err).events = [.stdFatal err] ∧
    (logPrintf { opts with LogOutput := none } format args).events =
      [.stdPrintf format args] ∧
    (logFatal { opts with LogOutput := some ⟨none, false⟩ } err).events = [.stdFatal err] ∧
    (logPrintf { opts with LogOutput := some ⟨none, false⟩ } format args).events =
      [.stdPrintf format args] := by
  refine ⟨?_, ?_, ?_, ?_, rfl, rfl, rfl, rfl⟩
  · unfold logFatal Exec.andThen
    rcases opts.LogOutput with _ | ⟨f, p⟩
    · simp [osStderr]
    · rcases f with _ | c
      · simp
      · cases c <;> simp
  · unfold logFatal Exec.andThen
    rcases opts.LogOutput with _ | ⟨f, p⟩
    · simp [osStderr]
    · rcases f with _ | c
      · simp
      · cases c <;> simp
  · unfold logPrintf
    rcases opts.LogOutput with _ | ⟨f, p⟩
    · simp [osStderr]
    · cases p <;> simp
  · unfold logPrintf
    rcases opts.LogOutput with _ | ⟨f, p⟩
    · simp [osStderr]
    · cases p <;> simp

/-! ## Development mode -/

/-- C5 (as amended): with `DevMode` set, `Serve` starts exactly one
listener, a plaintext one whose address is `":"` followed by the decimal
rendering of `Port`; that address is `":80"` only when `Port` is 80 and
`":443"` only when `Port` is 443, so for any other port nothing is bound
to `:80` or `:443`. -/
theorem dev_single_listener (opts : Options) (hdev : opts.DevMode = true) :
    ∃ s, servers (Serve opts) = [s] ∧
      s.Addr = ":" ++ toString opts.Port ∧
      s.tls = none ∧
      (s.Addr = ":80" ↔ opts.Port = 80) ∧
      (s.Addr = ":443" ↔ opts.Port = 443) := by
  refine ⟨{ Handler := .app opts.Handler, Addr := ":" ++ toString opts.Port,
             WriteTimeout := timeout, ReadTimeout := timeout, tls := none },
    ?_, rfl, rfl, ?_, ?_⟩
  · simp [Serve, hdev, startServerDev, servers, Stmt.servers]
  · exact addr_eq_iff opts.Port 80
  · exact addr_eq_iff opts.Port 443

/-- C5 at port 8080. -/
theorem dev_single_listener_witness :
    optsDev.DevMode = true ∧
    ∃ s, servers (Serve optsDev) = [s] ∧
      s.Addr = ":" ++ toString optsDev.Port ∧
      s.tls = none ∧
      (s.Addr = ":80" ↔ optsDev.Port = 80) ∧
      (s.Addr = ":443" ↔ optsDev.Port = 443) :=
  ⟨rfl, dev_single_listener optsDev rfl⟩

/-- C5 fails as stated: with `DevMode` set and `Port = 80` the one
listener is bound to `:80`. -/
theorem dev_port_80_counterexample :
    optsDev80.DevMode = true ∧ ∃ s ∈ servers (Serve optsDev80), s.Addr = ":80" := by
  decide

/-- C10: with `DevMode` set, the one listener that `startServerDev` starts
is plaintext, uses the supplied handler, has both timeouts at 15 seconds,
and has the address `":<port>"`, `<port>` being the decimal rendering of
`Port`; a listener on that address is bound exactly as one on
`"0.0.0.0:<port>"` is: to the wildcard address on that port. -/
theorem dev_listener_addr (opts : Options) (hdev : opts.DevMode = true)
    (net : Server → Option String) :
    servers (Serve opts) = servers (startServerDev opts) ∧
    servers (startServerDev opts) =
      [{ Handler := .app opts.Handler, Addr := ":" ++ toString opts.Port,
         WriteTimeout := 15, ReadTimeout := 15, tls := none }] ∧
    started opts net (Serve opts) = servers (startServerDev opts) ∧
    (∀ s ∈ started opts net (Serve opts),
      s.Handler = .app opts.Handler ∧
      s.tls = none ∧
      listenAddr s.Addr = listenAddr ("0.0.0.0:" ++ toString opts.Port) ∧
      listenAddr s.Addr = some (.wildcard, toString opts.Port)) := by
  have hl := listenAddr_port opts.Port
  simp [Serve, hdev, startServerDev, servers, Stmt.servers, started, Stmt.started,
    Stmt.exec, timeout, hl.1, hl.2]

/-- C10 at port 8080: the address `":8080"` is bound as `"0.0.0.0:8080"` is. -/
theorem dev_listener_addr_witness :
    optsDev.DevMode = true ∧
    (servers (Serve optsDev) = servers (startServerDev optsDev) ∧
    servers (startServerDev optsDev) =
      [{ Handler := .app ⟨0⟩, Addr := ":8080",
         WriteTimeout := 15, ReadTimeout := 15, tls := none }] ∧
    started optsDev (fun _ => none) (Serve optsDev) = servers (startServerDev optsDev) ∧
    (∀ s ∈ started optsDev (fun _ => none) (Serve optsDev),
      s.Handler = .app optsDev.Handler ∧
      s.tls = none ∧
      listenAddr s.Addr = listenAddr ("0.0.0.0:" ++ toString optsDev.Port) ∧
      listenAddr s.Addr = some (.wildcard, toString optsDev.Port))) :=
  ⟨rfl, dev_listener_addr optsDev rfl (fun _ => none)⟩

/-! ## The two non-development modes -/

/-- C6: with `DevMode` unset, the listeners `Serve` starts are exactly its
two listener calls, whose addresses are exactly `":80"` and `":443"`; a
listener carries the application handler exactly when it is the one on
`:443`, which is the TLS listener (in static-certificate mode with
`CertFile` and `KeyFile`), and the listener on `:80` is plaintext and has
no application handler at all, neither as its handler nor as a fallback. -/
theorem nondev_listeners (opts : Options) (hdev : opts.DevMode = false)
    (net : Server → Option String) :
    started opts net (Serve opts) = servers (Serve opts) ∧
    (∀ a, a ∈ (servers (Serve opts)).map Server.Addr ↔ a = ":80" ∨ a = ":443") ∧
    (servers (Serve opts)).length = 2 ∧
    (∀ s ∈ servers (Serve opts),
      (s.Handler = .app opts.Handler ↔ s.Addr = ":443") ∧
      ((∃ h, s.Handler = .app h) ↔ s.Addr = ":443") ∧
      (s.Handler.appHandlers = [opts.Handler] ↔ s.Addr = ":443") ∧
      (s.Handler.appHandlers = [] ↔ s.Addr = ":80") ∧
      (s.tls ≠ none ↔ s.Addr = ":443") ∧
      (s.tls = none ↔ s.Addr = ":80")) ∧
    (Serve.mode opts = .staticCert →
      ∀ s ∈ servers (Serve opts), s.Addr = ":443" →
        s.tls = some (.files opts.CertFile opts.KeyFile)) := by
  have h1 : (":80" : String) ≠ ":443" := by decide
  have h2 : (":443" : String) ≠ ":80" := by decide
  rw [Serve_eq_start]
  cases hm : Serve.mode opts with
  | dev => rw [mode_dev_iff] at hm; simp [hdev] at hm
  | autoCert =>
    refine ⟨?_, ?_⟩
    · simp [Mode.start, startServerAutoCert, servers, Stmt.servers, started, Stmt.started,
        Stmt.exec]
    · simp [Mode.start, startServerAutoCert, servers, Stmt.servers, Handler.appHandlers,
        h1, h2]
      intro a
      tauto
  | staticCert =>
    refine ⟨?_, ?_⟩
    · simp [Mode.start, startServerHTTP, startServerHTTPS, servers, Stmt.servers, started,
        Stmt.started, Stmt.exec]
    · simp [Mode.start, startServerHTTP, startServerHTTPS, servers, Stmt.servers,
        Handler.appHandlers, h1, h2]

/-- C6 with both certificate fields set and listeners that keep serving. -/
theorem nondev_listeners_witness :
    optsStatic.DevMode = false ∧
    (started optsStatic (fun _ => none) (Serve optsStatic) = servers (Serve optsStatic) ∧
    (∀ a, a ∈ (servers (Serve optsStatic)).map Server.Addr ↔ a = ":80" ∨ a = ":443") ∧
    (servers (Serve optsStatic)).length = 2 ∧
    (∀ s ∈ servers (Serve optsStatic),
      (s.Handler = .app optsStatic.Handler ↔ s.Addr = ":443") ∧
      ((∃ h, s.Handler = .app h) ↔ s.Addr = ":443") ∧
      (s.Handler.appHandlers = [optsStatic.Handler] ↔ s.Addr = ":443") ∧
      (s.Handler.appHandlers = [] ↔ s.Addr = ":80") ∧
      (s.tls ≠ none ↔ s.Addr = ":443") ∧
      (s.tls = none ↔ s.Addr = ":80")) ∧
    (Serve.mode optsStatic = .staticCert →
      ∀ s ∈ servers (Serve optsStatic), s.Addr = ":443" →
        s.tls = some (.files optsStatic.CertFile optsStatic.KeyFile))) :=
  ⟨rfl, nondev_listeners optsStatic rfl (fun _ => none)⟩

/-- C7: in automatic-certificate mode the one certificate manager that the
listeners use has the prompt `AcceptTOS`, the cache `DirCache("certs")` and
the host policy `HostWhitelist(Domain)`; that policy allows a host exactly
when it is the configured domain (in the library's ASCII form of it, which
for a conversion that leaves names unchanged is the domain itself). -/
theorem autocert_manager_config (opts : Options) (hmode : Serve.mode opts = .autoCert) :
    (∃ s ∈ servers (Serve opts), s.tls = some (.GetCertificate (certManager opts))) ∧
    (∃ s ∈ servers (Serve opts), s.Handler = .HTTPHandler (certManager opts) none) ∧
    (∀ s ∈ servers (Serve opts), ∀ m,
      (s.tls = some (.GetCertificate m) ∨ ∃ fb, s.Handler = .HTTPHandler m fb) →
        m = ⟨.AcceptTOS, .HostWhitelist [opts.Domain], .DirCache "certs"⟩) ∧
    (∀ toASCII host, (certManager opts).HostPolicy.allows toASCII host = true ↔
      toASCII opts.Domain = some host) ∧
    (∀ host, (certManager opts).HostPolicy.allows some host = true ↔ host = opts.Domain) := by
  rw [Serve_eq_start, hmode]
  refine ⟨?_, ?_, ?_, ?_, ?_⟩
  · simp [Mode.start, startServerAutoCert, servers, Stmt.servers]
  · simp [Mode.start, startServerAutoCert, servers, Stmt.servers]
  · simp [Mode.start, startServerAutoCert, servers, Stmt.servers, certManager]
  · intro toASCII host
    simp only [certManager, HostPolicy.allows, List.filterMap]
    cases h : toASCII opts.Domain with
    | none => simp
    | some a => simp [eq_comm]
  · intro host
    simp [certManager, HostPolicy.allows]

/-- C7 with neither certificate field set. -/
theorem autocert_manager_config_witness :
    Serve.mode optsAuto = .autoCert ∧
    ((∃ s ∈ servers (Serve optsAuto), s.tls = some (.GetCertificate (certManager optsAuto))) ∧
    (∃ s ∈ servers (Serve optsAuto), s.Handler = .HTTPHandler (certManager optsAuto) none) ∧
    (∀ s ∈ servers (Serve optsAuto), ∀ m,
      (s.tls = some (.GetCertificate m) ∨ ∃ fb, s.Handler = .HTTPHandler m fb) →
        m = ⟨.AcceptTOS, .HostWhitelist ["example.com"], .DirCache "certs"⟩) ∧
    (∀ toASCII host, (certManager optsAuto).HostPolicy.allows toASCII host = true ↔
      toASCII "example.com" = some host) ∧
    (∀ host, (certManager optsAuto).HostPolicy.allows some host = true ↔
      host = "example.com")) :=
  ⟨by decide, autocert_manager_config optsAuto (by decide)⟩

/-- C9: in automatic-certificate mode the main flow of `Serve` first
spawns a goroutine whose listener call is the TLS server on `:443` taking
its certificates from the manager's `GetCertificate`, and then, as its
last statement, makes the listener call on `:80` with the manager's
`HTTPHandler(nil)`, which is not the redirect handler; that call is the
first thing the main flow does after the spawn, and the main flow does not
return from it. -/
theorem autocert_startup_order (opts : Options) (hmode : Serve.mode opts = .autoCert)
    (net : Server → Option String) :
    ∃ announce https http,
      Serve opts = [.go [.go announce, .serveFatal https], .serveFatal http] ∧
      https.Addr = ":443" ∧
      https.Handler = .app opts.Handler ∧
      https.tls = some (.GetCertificate (certManager opts)) ∧
      http.Addr = ":80" ∧
      http.tls = none ∧
      http.Handler = .HTTPHandler (certManager opts) none ∧
      http.Handler ≠ .redirectFunc opts.Domain ∧
      (exec opts net (Serve opts)).events.head? = some (.listen http) ∧
      (exec opts net (Serve opts)).ctl ≠ .returned := by
  have hctl := exec_Serve_ctl opts net
  rw [Serve_eq_start, hmode] at hctl ⊢
  refine ⟨_, _, _, rfl, rfl, rfl, rfl, rfl, rfl, rfl, by simp, ?_, ?_⟩
  · simp only [exec, Stmt.exec, Exec.andThen]
    cases net _ with
    | none => simp
    | some err =>
      simp only [List.nil_append, List.singleton_append]
      split <;> rfl
  · intro h
    rw [hctl] at h
    simp [hmode] at h

/-- C9 with neither certificate field set and listeners that keep serving. -/
theorem autocert_startup_order_witness :
    Serve.mode optsAuto = .autoCert ∧
    ∃ announce https http,
      Serve optsAuto = [.go [.go announce, .serveFatal https], .serveFatal http] ∧
      https.Addr = ":443" ∧
      https.Handler = .app optsAuto.Handler ∧
      https.tls = some (.GetCertificate (certManager optsAuto)) ∧
      http.Addr = ":80" ∧
      http.tls = none ∧
      http.Handler = .HTTPHandler (certManager optsAuto) none ∧
      http.Handler ≠ .redirectFunc optsAuto.Domain ∧
      (exec optsAuto (fun _ => none) (Serve optsAuto)).events.head? = some (.listen http) ∧
      (exec optsAuto (fun _ => none) (Serve optsAuto)).ctl ≠ .returned :=
  ⟨by decide, autocert_startup_order optsAuto (by decide) (fun _ => none)⟩

end TidwallServe
